import Mathlib

/-!
Shallow embedding of the MultiMC component-list engine
(src/api/logic/minecraft/Component.h, Component.cpp, ComponentList.cpp).

QString is modelled as String, QDateTime as a Nat timestamp,
ProblemSeverity as a Nat (0 = None, 1 = Warning, 2 = Error).
The filesystem is an association list from paths to file contents; file
writes and removals are modelled as succeeding (the I/O-failure branches of
the code are kept but are never taken in this model).
-/

/-- Minimal JSON value model mirroring QJsonValue: objects are key/value
lists (QJsonObject lookup is by key, so list order is irrelevant). -/
inductive Json where
  | str : String → Json
  | num : Int → Json
  | bool : Bool → Json
  | arr : List Json → Json
  | obj : List (String × Json) → Json
  | null : Json

/-- Contents of a file on disk: either text that fails JSON parsing, or a
parsed JSON document. -/
inductive JsonContent where
  | malformed : JsonContent
  | json : Json → JsonContent

/-- The on-disk state: paths of existing files with their contents. -/
abbrev FSModel := List (String × JsonContent)

def fsLookup : FSModel → String → Option JsonContent
  | [], _ => none
  | (p, c) :: rest, path => if p = path then some c else fsLookup rest path

def fsExists (fs : FSModel) (path : String) : Bool :=
  (fsLookup fs path).isSome

/-- Write a file: replace the contents if the path exists, else create it. -/
def fsWrite : FSModel → String → JsonContent → FSModel
  | [], path, c => [(path, c)]
  | (p, c0) :: rest, path, c =>
    if p = path then (path, c) :: rest else (p, c0) :: fsWrite rest path c

/-- Delete a file. -/
def fsRemove : FSModel → String → FSModel
  | [], _ => []
  | (p, c) :: rest, path =>
    if p = path then fsRemove rest path else (p, c) :: fsRemove rest path

/-- QJsonObject::value(key): the value stored under a key, if any. -/
def jlookup : List (String × Json) → String → Option Json
  | [], _ => none
  | (k, v) :: rest, key => if k = key then some v else jlookup rest key

/-- Json::requireString: fails unless the value is present and a string. -/
def requireString : Option Json → Except String String
  | some (Json.str s) => Except.ok s
  | _ => Except.error ("expected string")

/-- Json::ensureString: a missing or non-string value defaults to "". -/
def ensureString : Option Json → String
  | some (Json.str s) => s
  | _ => ""

/-- Json::requireInteger. -/
def requireInteger : Option Json → Except String Int
  | some (Json.num n) => Except.ok n
  | _ => Except.error ("expected integer")

/-- Json::requireArray. -/
def requireArray : Option Json → Except String (List Json)
  | some (Json.arr a) => Except.ok a
  | _ => Except.error ("expected array")

/-- Json::requireObject on a JSON value. -/
def requireObject : Json → Except String (List (String × Json))
  | Json.obj fields => Except.ok fields
  | _ => Except.error ("expected object")

/-- QString::arg over character lists: replace every occurrence of the
place marker %1 by the argument. -/
def qtArgChars (arg : List Char) : List Char → List Char
  | [] => []
  | [c] => [c]
  | c1 :: c2 :: rest =>
    if c1 = '%' ∧ c2 = '1' then arg ++ qtArgChars arg rest
    else c1 :: qtArgChars arg (c2 :: rest)

/-- QString::arg(uid) on a pattern containing the %1 marker. -/
def qtArg (pattern arg : String) : String :=
  ⟨qtArgChars arg.data pattern.data⟩

/-- Modelled from the spec: FS::PathCombine is an external helper; the
spec's filesystem layout (§6) shows it joining path segments with a
separator. -/
def pathCombine (a b : String) : String :=
  a ++ "/" ++ b

def pathCombine3 (a b c : String) : String :=
  pathCombine (pathCombine a b) c

/-- In-memory VersionFile (the parsed contents of one patch), reduced to
the fields this engine reads: identity, version, name, order, release
time, problem severity and the jar-mod list (is-local flag and the
on-disk jar path). -/
structure VersionFileM where
  uid : String
  version : String
  name : String
  order : Int
  releaseTime : Nat
  problemSeverity : Nat
  jarMods : List (Bool × String)
deriving DecidableEq

/-- A Meta::Version handle into the metadata index: identity, version,
display name, release time, and the version file obtained by data()
after load() (none when loading fails). -/
structure MetaVersionM where
  uid : String
  version : String
  name : String
  time : Nat
  data? : Option VersionFileM
deriving DecidableEq

/-- Component (Component.h): persistent fields, mutability flags, order
override, and the two possible sources (remote metadata handle m_metaVersion
or local version file m_file). Defaults mirror the header initialisers. -/
structure Component where
  m_uid : String
  cachedName : String := ""
  m_currentVersion : String := ""
  m_isMovable : Bool := false
  m_isRevertible : Bool := false
  m_isRemovable : Bool := false
  m_isVanilla : Bool := false
  m_orderOverride : Bool := false
  m_order : Int := 0
  m_metaVersion : Option MetaVersionM := none
  m_file : Option VersionFileM := none
  m_filename : String := ""
  m_loaded : Bool := false
deriving DecidableEq

/-- Component::Component(uid, filename). -/
def Component.mkFromFilename (uid filename : String) : Component :=
  { m_uid := uid, m_filename := filename }

/-- Component::Component(metaVersion). -/
def Component.mkFromMeta (version : MetaVersionM) (loaded : Bool) : Component :=
  { m_uid := version.uid, m_currentVersion := version.version,
    cachedName := version.name, m_metaVersion := some version,
    m_loaded := loaded }

/-- Component::Component(uid, file, filename). -/
def Component.mkFromFile (uid : String) (file : VersionFileM) (filename : String) : Component :=
  { m_uid := uid, m_file := some file, m_filename := filename,
    m_currentVersion := file.version, cachedName := file.name,
    m_loaded := true }

/-- Component::getVersionFile: a remote component yields the metadata
handle's data (after loading it on demand); a local one yields m_file. -/
def Component.getVersionFile (c : Component) : Option VersionFileM :=
  match c.m_metaVersion with
  | some mv => mv.data?
  | none => c.m_file

def Component.getID (c : Component) : String :=
  c.m_uid

/-- Component::getName: the cached name when non-empty, else the uid. -/
def Component.getName (c : Component) : String :=
  if c.cachedName = "" then c.m_uid else c.cachedName

/-- Component::getVersion: the metadata handle's version when remote;
else the version file's version; else the cached current version. -/
def Component.getVersion (c : Component) : String :=
  match c.m_metaVersion with
  | some mv => mv.version
  | none =>
    match c.getVersionFile with
    | some vfile => vfile.version
    | none => c.m_currentVersion

/-- Component::getReleaseDateTime: the metadata handle's time when remote;
else the version file's release time; else the current time (passed in as
now). -/
def Component.getReleaseDateTime (c : Component) (now : Nat) : Nat :=
  match c.m_metaVersion with
  | some mv => mv.time
  | none =>
    match c.getVersionFile with
    | some vfile => vfile.releaseTime
    | none => now

/-- Component::getOrder. -/
def Component.getOrder (c : Component) : Int :=
  if c.m_orderOverride then c.m_order
  else
    match c.getVersionFile with
    | some vfile => vfile.order
    | none => 0

/-- Component::isCustom: true exactly when a local version file is held. -/
def Component.isCustom (c : Component) : Bool :=
  c.m_file.isSome

/-- Component::isCustomizable: a remote component whose version file is
obtainable. -/
def Component.isCustomizable (c : Component) : Bool :=
  match c.m_metaVersion with
  | some _ => c.getVersionFile.isSome
  | none => false

def Component.isRemovable (c : Component) : Bool :=
  c.m_isRemovable

def Component.isRevertible (c : Component) : Bool :=
  c.m_isRevertible

def Component.isMoveable (c : Component) : Bool :=
  c.m_isMovable

/-- Component::getProblemSeverity: the version file's severity, or Error
(2) when no file is obtainable. -/
def Component.getProblemSeverity (c : Component) : Nat :=
  match c.getVersionFile with
  | some vfile => vfile.problemSeverity
  | none => 2

/-- Modelled from the spec: LaunchProfile (§3) is an accumulator outside
these sources; it is reduced to the ordered list of applied version files
and the aggregated problem severity, which is all this engine's claims
observe of it. -/
structure LaunchProfile where
  applied : List VersionFileM
  problemSeverity : Nat

/-- Modelled from the spec: VersionFile::applyTo (§4.2) merges the file's
fragments into the profile; modelled as appending the file and raising the
aggregate severity. -/
def VersionFileM.applyTo (vf : VersionFileM) (p : LaunchProfile) : LaunchProfile :=
  { applied := p.applied ++ [vf],
    problemSeverity := max p.problemSeverity vf.problemSeverity }

/-- Modelled from the spec: LaunchProfile::applyProblemSeverity raises the
aggregate severity (§4.1). -/
def LaunchProfile.applyProblemSeverity (p : LaunchProfile) (sev : Nat) : LaunchProfile :=
  { p with problemSeverity := max p.problemSeverity sev }

/-- Component::applyTo: merge the version file when obtainable, else stamp
the profile with this component's problem severity. -/
def Component.applyTo (c : Component) (p : LaunchProfile) : LaunchProfile :=
  match c.getVersionFile with
  | some vfile => vfile.applyTo p
  | none => p.applyProblemSeverity c.getProblemSeverity

/-- ComponentListData plus the parts of the environment the operations
touch: the instance root (for path resolution), the ordered component
container, the uid index (QMap modelled as an association list), the dirty
flag, the debounce timer's started state, the stored launch profile, and
the on-disk files. -/
structure ComponentListState where
  root : String
  components : List Component
  componentIndex : List (String × Component)
  dirty : Bool
  timerStarted : Bool
  profile : Option LaunchProfile
  fs : FSModel

/-- QMap::operator[]=: replace the value under the key, or add the pair. -/
def mapInsert : List (String × Component) → String → Component → List (String × Component)
  | [], k, v => [(k, v)]
  | (k0, v0) :: rest, k, v =>
    if k0 = k then (k, v) :: rest else (k0, v0) :: mapInsert rest k v

/-- QMap::remove(key). -/
def mapRemove : List (String × Component) → String → List (String × Component)
  | [], _ => []
  | (k0, v0) :: rest, k =>
    if k0 = k then mapRemove rest k else (k0, v0) :: mapRemove rest k

/-- QMap::contains(key). -/
def mapContains : List (String × Component) → String → Bool
  | [], _ => false
  | (k0, _) :: rest, k => k0 = k || mapContains rest k

/-- ComponentList::componentsFilePath. -/
def componentsFilePath (root : String) : String :=
  pathCombine root ("mmc-pack.json")

/-- ComponentList::patchesPattern. -/
def patchesPattern (root : String) : String :=
  pathCombine3 root ("patches") ("%1.json")

/-- ComponentList::scheduleSave: mark the list dirty and (re)start the
debounce timer. -/
def scheduleSave (s : ComponentListState) : ComponentListState :=
  { s with dirty := true, timerStarted := true }

/-- ComponentList::saveIsScheduled. -/
def saveIsScheduled (s : ComponentListState) : Bool :=
  s.dirty

/-- ComponentList::reapplyPatches: rebuild the launch profile from scratch
by applying every component in list order (the exception branch of the
code is unreachable in this model, where applyTo is total). -/
def reapplyPatches (s : ComponentListState) : ComponentListState :=
  let fresh : LaunchProfile := { applied := [], problemSeverity := 0 }
  { s with profile := some (s.components.foldl (fun p c => c.applyTo p) fresh) }

/-- componentToJsonV1: the uid always, currentVersion and cachedName only
when non-empty. -/
def componentToJsonV1 (component : Component) : List (String × Json) :=
  [(("uid" : String), Json.str component.m_uid)] ++
  (if component.m_currentVersion = "" then []
   else [(("currentVersion" : String), Json.str component.m_currentVersion)]) ++
  (if component.cachedName = "" then []
   else [(("cachedName" : String), Json.str component.cachedName)])

/-- componentFromJsonV1: require the uid, point the filename at the
per-component patch path, and read the optional fields with empty-string
defaults. -/
def componentFromJsonV1 (componentJsonPattern : String) (obj : List (String × Json)) :
    Except String Component :=
  match requireString (jlookup obj ("uid")) with
  | Except.error e => Except.error e
  | Except.ok uid =>
    let filePath := pathCombine (qtArg componentJsonPattern uid) (qtArg ("%1.json") uid)
    let component := Component.mkFromFilename uid filePath
    Except.ok { component with
      m_currentVersion := ensureString (jlookup obj ("currentVersion")),
      cachedName := ensureString (jlookup obj ("cachedName")) }

/-- The manifest document written by saveComponentList: formatVersion 1
plus the component array. -/
def componentsManifestJson (container : List Component) : Json :=
  Json.obj
    ([(("formatVersion" : String), Json.num 1),
      (("components" : String),
        Json.arr (container.map (fun c => Json.obj (componentToJsonV1 c))))])

/-- saveComponentList: serialise the container to the given file. The
QSaveFile open/write/commit failure branches are environment I/O and are
modelled as succeeding. -/
def saveComponentList (fs : FSModel) (filename : String) (container : List Component) :
    Bool × FSModel :=
  (true, fsWrite fs filename (JsonContent.json (componentsManifestJson container)))

/-- The loop of loadComponentList over the components array: each entry
must be an object and is turned into a component; the first failure aborts
(the catch-block in the code then clears the container). -/
def readComponents (componentJsonPattern : String) : List Json → Except String (List Component)
  | [] => Except.ok []
  | item :: rest =>
    match requireObject item with
    | Except.error _ => Except.error ("Component must be an object.")
    | Except.ok obj =>
      match componentFromJsonV1 componentJsonPattern obj with
      | Except.error e => Except.error e
      | Except.ok c =>
        match readComponents componentJsonPattern rest with
        | Except.error e => Except.error e
        | Except.ok cs => Except.ok (c :: cs)

/-- The body of loadComponentList's try block: require a top-level object,
require formatVersion = 1, then read the components array. -/
def parseComponentsDocument (componentJsonPattern : String) (doc : Json) :
    Except String (List Component) :=
  match requireObject doc with
  | Except.error e => Except.error e
  | Except.ok obj =>
    match requireInteger (jlookup obj ("formatVersion")) with
    | Except.error e => Except.error e
    | Except.ok version =>
      if version ≠ 1 then Except.error ("Invalid component file version")
      else
        match requireArray (jlookup obj ("components")) with
        | Except.error e => Except.error e
        | Except.ok orderArray => readComponents componentJsonPattern orderArray

/-- loadComponentList: a missing or unopenable file, a JSON parse error,
or a validation error all yield false with an empty container (the code
either never appends or clears the container in the catch block). -/
def loadComponentList (content : Option JsonContent) (componentJsonPattern : String) :
    Bool × List Component :=
  match content with
  | none => (false, [])
  | some JsonContent.malformed => (false, [])
  | some (JsonContent.json doc) =>
    match parseComponentsDocument componentJsonPattern doc with
    | Except.error _ => (false, [])
    | Except.ok container => (true, container)

/-- Rebuilding of the in-memory list at the end of ComponentList::load:
replace the container, clear the index and re-insert every component. -/
def loadInto (s : ComponentListState) : ComponentListState :=
  let result := loadComponentList (fsLookup s.fs (componentsFilePath s.root)) (patchesPattern s.root)
  let newComponents := result.snd
  { s with components := newComponents,
           componentIndex := newComponents.foldl (fun m c => mapInsert m c.m_uid c) [] }

/-- ComponentList::load. The pre-component migration
(loadPreComponentConfig) depends on the metadata index, ProfileUtils and
directory scanning, which are external collaborators; it is abstracted as
the migrate parameter that transforms the disk state, returning none on
failure (in which case load returns with no in-memory change, as the code
does). -/
def ComponentList.load (migrate : FSModel → Option FSModel) (s : ComponentListState) :
    ComponentListState :=
  if fsExists s.fs (componentsFilePath s.root) then loadInto s
  else
    match migrate s.fs with
    | none => s
    | some fs1 => loadInto { s with fs := fs1 }

/-- ComponentList::save: write the manifest and clear the dirty flag (the
boolean result of saveComponentList is ignored by the code). -/
def ComponentList.save (s : ComponentListState) : ComponentListState :=
  let result := saveComponentList s.fs (componentsFilePath s.root) s.components
  { s with fs := result.snd, dirty := false }

/-- ComponentList::getComponent(int): none when the index is out of
range. -/
def ComponentList.getComponent (s : ComponentListState) (index : Int) : Option Component :=
  if index < 0 ∨ (s.components.length : Int) ≤ index then none
  else s.components[index.toNat]?

/-- ComponentList::getComponent(QString). -/
def ComponentList.getComponentById (s : ComponentListState) (id : String) : Option Component :=
  match s.componentIndex.find? (fun kv => kv.fst = id) with
  | some kv => some kv.snd
  | none => none

/-- ComponentList::appendComponent: reject an empty or duplicate uid
silently; otherwise append to the container and the index and schedule a
save. -/
def ComponentList.appendComponent (s : ComponentListState) (patch : Component) :
    ComponentListState :=
  let id := patch.getID
  if id = "" then s
  else if mapContains s.componentIndex id then s
  else
    scheduleSave { s with components := s.components ++ [patch],
                          componentIndex := mapInsert s.componentIndex id patch }

/-- The jar-mod pre-removal step of removeComponent_internal: a non-local
jar mod is left alone; a local one has its jar file deleted when present
(the deletion failure branch is environment I/O, modelled as success). -/
def preRemoveJarMod (fs : FSModel) (jarMod : Bool × String) : Bool × FSModel :=
  if !jarMod.fst then (true, fs)
  else if fsExists fs jarMod.snd then (true, fsRemove fs jarMod.snd)
  else (true, fs)

/-- The jar-mod loop of removeComponent_internal. -/
def removeJarMods (fs : FSModel) : List (Bool × String) → Bool × FSModel
  | [] => (true, fs)
  | jarMod :: rest =>
    let step := preRemoveJarMod fs jarMod
    let restResult := removeJarMods step.snd rest
    (step.fst && restResult.fst, restResult.snd)

/-- ComponentList::removeComponent_internal: delete the patch file when it
has a name and exists, then delete the local jar-mod files declared by the
version file (setComponentVersion is a stub returning false, so the
version-reset step has no effect on the state). -/
def removeComponent_internal (fs : FSModel) (patch : Component) : Bool × FSModel :=
  let fs1 :=
    if patch.m_filename ≠ "" ∧ fsExists fs patch.m_filename = true
    then fsRemove fs patch.m_filename else fs
  match patch.getVersionFile with
  | none => (true, fs1)
  | some vfile => removeJarMods fs1 vfile.jarMods

/-- ComponentList::remove(int): precondition check, file removal, then
erase from the container and the index, re-apply and schedule a save. -/
def ComponentList.removeAtIdx (s : ComponentListState) (index : Int) :
    Bool × ComponentListState :=
  match ComponentList.getComponent s index with
  | none => (false, s)
  | some patch =>
    if !patch.isRemovable then (false, s)
    else
      let internal := removeComponent_internal s.fs patch
      if !internal.fst then (false, { s with fs := internal.snd })
      else
        let s1 := { s with fs := internal.snd,
                           components := s.components.eraseIdx index.toNat,
                           componentIndex := mapRemove s.componentIndex patch.getID }
        (true, scheduleSave (reapplyPatches s1))

/-- ComponentList::remove(QString): remove at the first index whose
component has the given id; false when no component matches. -/
def ComponentList.removeById (s : ComponentListState) (id : String) :
    Bool × ComponentListState :=
  match s.components.findIdx? (fun patch => patch.getID = id) with
  | some i => ComponentList.removeAtIdx s (i : Int)
  | none => (false, s)

/-- Modelled from the spec: OneSixVersionFormat::versionFileToJson is
outside these sources; the spec (§6) says the engine writes the version
file's fields back unchanged when customising. -/
def versionFileToJson (vfile : VersionFileM) : Json :=
  Json.obj
    ([(("uid" : String), Json.str vfile.uid),
      (("version" : String), Json.str vfile.version),
      (("name" : String), Json.str vfile.name),
      (("order" : String), Json.num vfile.order)])

/-- ComponentList::customizeComponent_internal: reject an already-custom
component; obtain the version file (failing without disk changes when it
is unavailable, since an uncommitted QSaveFile leaves no trace); write it
to the patch path and reload the list. -/
def customizeComponent_internal (migrate : FSModel → Option FSModel)
    (s : ComponentListState) (patch : Component) : Bool × ComponentListState :=
  if patch.isCustom then (false, s)
  else
    let filename := pathCombine3 s.root ("patches") (patch.getID ++ (".json"))
    match patch.getVersionFile with
    | none => (false, s)
    | some vfile =>
      let fs1 := fsWrite s.fs filename (JsonContent.json (versionFileToJson vfile))
      (true, ComponentList.load migrate { s with fs := fs1 })

/-- ComponentList::revertComponent_internal: an already-non-custom
component or a missing file is success without changes; otherwise delete
the file and reload the list. -/
def revertComponent_internal (migrate : FSModel → Option FSModel)
    (s : ComponentListState) (patch : Component) : Bool × ComponentListState :=
  if !patch.isCustom then (true, s)
  else if !fsExists s.fs patch.m_filename then (true, s)
  else
    let fs1 := fsRemove s.fs patch.m_filename
    (true, ComponentList.load migrate { s with fs := fs1 })

/-- ComponentList::customize: precondition check, internal customisation,
then re-apply and schedule a save. -/
def ComponentList.customize (migrate : FSModel → Option FSModel)
    (s : ComponentListState) (index : Int) : Bool × ComponentListState :=
  match ComponentList.getComponent s index with
  | none => (false, s)
  | some patch =>
    if !patch.isCustomizable then (false, s)
    else
      let internal := customizeComponent_internal migrate s patch
      if !internal.fst then (false, internal.snd)
      else (true, scheduleSave (reapplyPatches internal.snd))

/-- ComponentList::revertToBase: precondition check, internal revert, then
re-apply and schedule a save. -/
def ComponentList.revertToBase (migrate : FSModel → Option FSModel)
    (s : ComponentListState) (index : Int) : Bool × ComponentListState :=
  match ComponentList.getComponent s index with
  | none => (false, s)
  | some patch =>
    if !patch.isRevertible then (false, s)
    else
      let internal := revertComponent_internal migrate s patch
      if !internal.fst then (false, internal.snd)
      else (true, scheduleSave (reapplyPatches internal.snd))

/-- ComponentList::isVanilla: no component is custom. -/
def ComponentList.isVanilla (s : ComponentListState) : Bool :=
  s.components.all (fun patch => !patch.isCustom)

/-- The loop of ComponentList::revertToVanilla over the snapshot of the
container: skip non-custom components; for a custom component that is
revertible or removable call remove(uid), and on its failure re-apply,
schedule a save and stop with false. -/
def revertToVanillaLoop (s : ComponentListState) :
    List Component → Bool × ComponentListState
  | [] => (true, scheduleSave (reapplyPatches s))
  | it :: rest =>
    if !it.isCustom then revertToVanillaLoop s rest
    else if it.isRevertible || it.isRemovable then
      let step := ComponentList.removeById s it.getID
      if !step.fst then (false, scheduleSave (reapplyPatches step.snd))
      else revertToVanillaLoop step.snd rest
    else revertToVanillaLoop s rest

/-- ComponentList::revertToVanilla. -/
def ComponentList.revertToVanilla (s : ComponentListState) : Bool × ComponentListState :=
  revertToVanillaLoop s s.components

/-- QList::swap(i, j): exchange the elements at two valid positions. -/
def listSwap (l : List Component) (i j : Nat) : List Component :=
  match l[i]?, l[j]? with
  | some a, some b => (l.set i b).set j a
  | _, _ => l

/-- The null-or-not-movable test of ComponentList::move: a missing
component (null pointer) or a non-movable one blocks the move. -/
def optionMovable : Option Component → Bool
  | some c => c.isMoveable
  | none => false

/-- ComponentList::move: compute the target index (one below or above,
with the code's clamping of an overflowing target to the last row and the
wrap of target -1 to the last row), reject out-of-range or identical
indices, require both components present and movable (the code's
four-way short-circuit null/movability test), then swap, re-apply and
schedule a save. -/
def ComponentList.move (s : ComponentListState) (index : Int) (up : Bool) :
    ComponentListState :=
  let n : Int := s.components.length
  let theirIndex0 : Int := if up then index - 1 else index + 1
  if index < 0 ∨ n ≤ index then s
  else
    let t1 : Int := if n ≤ theirIndex0 then n - 1 else theirIndex0
    let t2 : Int := if t1 = -1 then n - 1 else t1
    if index = t2 then s
    else
      if !optionMovable (ComponentList.getComponent s index)
         || !optionMovable (ComponentList.getComponent s t2) then s
      else
        let s1 := { s with components := listSwap s.components index.toNat t2.toNat }
        scheduleSave (reapplyPatches s1)

/-- ComponentList::getComponentVersion. -/
def ComponentList.getComponentVersion (s : ComponentListState) (uid : String) : String :=
  match ComponentList.getComponentById s uid with
  | some c => c.getVersion
  | none => ""

/-- A migration hook that always fails, for concrete evaluations where the
manifest is present (so the hook is never consulted). -/
def migrateNone : FSModel → Option FSModel :=
  fun _ => none

/-- A concrete version file for the examples. -/
def vfMC : VersionFileM :=
  { uid := "net.minecraft", version := "1.12.2", name := "Minecraft",
    order := -2, releaseTime := 100, problemSeverity := 0, jarMods := [] }

/-- A concrete built-in component with every mutation flag off: not
removable, not revertible, and (with no metadata handle) not
customizable. -/
def compVanillaMC : Component :=
  { m_uid := "net.minecraft" }

/-- A concrete single-component list state around compVanillaMC. -/
def stateVanillaMC : ComponentListState :=
  { root := "inst", components := [compVanillaMC],
    componentIndex := [(("net.minecraft" : String), compVanillaMC)],
    dirty := false, timerStarted := false, profile := none, fs := [] }

/-- C2: an operation whose precondition fails returns false and leaves the
entire state — component sequence, uid index, on-disk files, stored launch
profile (and the dirty flag and timer besides) — unchanged: remove on a
non-removable component, customize on a non-customizable one, revertToBase
on a non-revertible one. -/
theorem c2_failed_precondition_leaves_state_unchanged
    (migrate : FSModel → Option FSModel) (s : ComponentListState) (index : Int)
    (patch : Component) (h : ComponentList.getComponent s index = some patch) :
    (patch.isRemovable = false → ComponentList.removeAtIdx s index = (false, s)) ∧
    (patch.isCustomizable = false → ComponentList.customize migrate s index = (false, s)) ∧
    (patch.isRevertible = false → ComponentList.revertToBase migrate s index = (false, s)) := by
  refine ⟨fun hp => ?_, fun hp => ?_, fun hp => ?_⟩ <;>
    simp [ComponentList.removeAtIdx, ComponentList.customize, ComponentList.revertToBase, h, hp]

/-- Witness for C2: all three operations fail and change nothing on a
concrete vanilla component that is neither removable, customizable nor
revertible. -/
theorem c2_witness :
    ComponentList.removeAtIdx stateVanillaMC 0 = (false, stateVanillaMC) ∧
    ComponentList.customize migrateNone stateVanillaMC 0 = (false, stateVanillaMC) ∧
    ComponentList.revertToBase migrateNone stateVanillaMC 0 = (false, stateVanillaMC) := by
  have h := c2_failed_precondition_leaves_state_unchanged migrateNone stateVanillaMC 0
    compVanillaMC (by decide)
  exact ⟨h.1 rfl, h.2.1 rfl, h.2.2 rfl⟩

/-- C3: appendComponent with an empty uid or a uid already present in the
index is a no-op on the whole state: the sequence, the index, the dirty
flag and the debounce timer are untouched. -/
theorem c3_append_rejects_empty_and_duplicate_uid (s : ComponentListState)
    (patch : Component)
    (h : patch.getID = "" ∨ mapContains s.componentIndex patch.getID = true) :
    ComponentList.appendComponent s patch = s := by
  rcases h with h | h
  · simp [ComponentList.appendComponent, h]
  · by_cases he : patch.getID = ""
    · simp [ComponentList.appendComponent, he]
    · simp [ComponentList.appendComponent, he, h]

/-- Witness for C3: appending a second component with uid net.minecraft to
the concrete state leaves it unchanged. -/
theorem c3_witness :
    ComponentList.appendComponent stateVanillaMC
      { compVanillaMC with cachedName := "duplicate" } = stateVanillaMC :=
  c3_append_rejects_empty_and_duplicate_uid stateVanillaMC
    { compVanillaMC with cachedName := "duplicate" } (Or.inr (by decide))

/-- C10: remove(uid) on a uid that no component carries returns false and
leaves the whole state unchanged. -/
theorem c10_remove_unknown_uid_unchanged (s : ComponentListState) (id : String)
    (h : s.components.all (fun c => !(c.getID = id)) = true) :
    ComponentList.removeById s id = (false, s) := by
  have hnone : s.components.findIdx? (fun patch => patch.getID = id) = none := by
    rw [List.findIdx?_eq_none_iff]
    intro x hx
    have hx2 := List.all_eq_true.mp h x hx
    simpa using hx2
  simp [ComponentList.removeById, hnone]

/-- Witness for C10: removing an absent uid from the concrete state fails
and changes nothing. -/
theorem c10_witness :
    ComponentList.removeById stateVanillaMC ("com.example.absent") =
      (false, stateVanillaMC) :=
  c10_remove_unknown_uid_unchanged stateVanillaMC ("com.example.absent") (by decide)

/-- The component produced by componentFromJsonV1 for uid net.minecraft
under the instance root inst (note the code combines the already-expanded
patch path with the file name again, duplicating the last segment). -/
def loadedMCComponent : Component :=
  Component.mkFromFilename ("net.minecraft")
    (pathCombine (qtArg (patchesPattern ("inst")) ("net.minecraft"))
      (qtArg ("%1.json") ("net.minecraft")))

/-- A disk state in which the local patch file inst/patches/net.minecraft.json
exists. -/
def fsWithMCPatch : FSModel :=
  [((pathCombine3 ("inst") ("patches") ("net.minecraft.json") : String),
    JsonContent.json (Json.obj []))]

/-- Counterexample to C1: a component instantiated by load() from the
manifest (componentFromJsonV1) is not custom even though its local patch
file <root>/patches/<uid>.json exists on disk — load() never attaches a
local version file, so the claimed equivalence fails. -/
theorem c1_counterexample :
    componentFromJsonV1 (patchesPattern ("inst"))
        [(("uid" : String), Json.str ("net.minecraft"))] =
      Except.ok loadedMCComponent ∧
    loadedMCComponent.isCustom = false ∧
    fsExists fsWithMCPatch (pathCombine3 ("inst") ("patches") ("net.minecraft.json")) = true := by
  refine ⟨?_, rfl, rfl⟩
  rfl

/-- C1 amended: isCustom(c) holds iff the component holds a local version
file in memory (m_file); a component instantiated by load() from the
manifest never holds one, so it is not custom regardless of whether
<root>/patches/<uid>.json exists on disk. -/
theorem c1_amended_loaded_components_never_custom
    (componentJsonPattern : String) (obj : List (String × Json)) (c : Component)
    (h : componentFromJsonV1 componentJsonPattern obj = Except.ok c) :
    c.isCustom = false ∧ c.m_file = none ∧
      (c.isCustom = true ↔ c.m_file.isSome = true) := by
  unfold componentFromJsonV1 at h
  cases hq : requireString (jlookup obj ("uid")) with
  | error e => rw [hq] at h; exact absurd h (by simp)
  | ok uid =>
    rw [hq] at h
    simp only [Except.ok.injEq] at h
    subst h
    exact ⟨rfl, rfl, Iff.rfl⟩

/-- Witness for C1 amended: the concrete manifest-loaded component is not
custom and holds no local file. -/
theorem c1_amended_witness :
    loadedMCComponent.isCustom = false ∧ loadedMCComponent.m_file = none ∧
      (loadedMCComponent.isCustom = true ↔ loadedMCComponent.m_file.isSome = true) :=
  c1_amended_loaded_components_never_custom (patchesPattern ("inst"))
    [(("uid" : String), Json.str ("net.minecraft"))] loadedMCComponent (by rfl)

/-- A concrete local version file whose display name differs from the
component's cached name. -/
def vfLwjgl : VersionFileM :=
  { uid := "org.lwjgl", version := "3.1.2", name := "LWJGL 3",
    order := -1, releaseTime := 50, problemSeverity := 0, jarMods := [] }

/-- A custom component whose persistent cachedName (as read back from the
manifest) differs from its local file's name. -/
def compCachedLwjgl : Component :=
  { m_uid := "org.lwjgl", cachedName := "Cached LWJGL",
    m_currentVersion := "3.0.0", m_file := some vfLwjgl,
    m_filename := "inst/patches/org.lwjgl.json" }

/-- Counterexample to C5: the claim says a present local file's field
value is preferred over the cached field, but getName returns the cached
name even though the local version file is present and carries a different
name. -/
theorem c5_counterexample :
    compCachedLwjgl.m_file = some vfLwjgl ∧
    compCachedLwjgl.getVersionFile = some vfLwjgl ∧
    vfLwjgl.name = "LWJGL 3" ∧
    compCachedLwjgl.getName = "Cached LWJGL" ∧
    ¬ compCachedLwjgl.getName = vfLwjgl.name := by
  refine ⟨rfl, rfl, rfl, rfl, ?_⟩
  decide

/-- C5 amended: getVersion and getReleaseDateTime consult the remote
metadata handle first, then the version file, then the cached field (or
the current time); getName consults only the cached name, falling back to
the uid, and never reads either source. -/
theorem c5_amended_accessor_fallback_order (c : Component) (now : Nat) :
    (¬ c.cachedName = "" → c.getName = c.cachedName) ∧
    (c.cachedName = "" → c.getName = c.m_uid) ∧
    (∀ mv, c.m_metaVersion = some mv →
      c.getVersion = mv.version ∧ c.getReleaseDateTime now = mv.time) ∧
    (c.m_metaVersion = none → ∀ vfile, c.m_file = some vfile →
      c.getVersion = vfile.version ∧ c.getReleaseDateTime now = vfile.releaseTime) ∧
    (c.m_metaVersion = none → c.m_file = none →
      c.getVersion = c.m_currentVersion ∧ c.getReleaseDateTime now = now) := by
  refine ⟨fun h => ?_, fun h => ?_, fun mv h => ?_, fun h vfile hf => ?_, fun h hf => ?_⟩ <;>
    simp [Component.getName, Component.getVersion, Component.getReleaseDateTime,
      Component.getVersionFile, h] <;> simp [*]

/-- Witness for C5 amended: the fallback order evaluated on the concrete
custom component (cached name wins for getName; with no metadata handle
the local file supplies version and release time). -/
theorem c5_amended_witness :
    compCachedLwjgl.getName = compCachedLwjgl.cachedName ∧
    compCachedLwjgl.getVersion = vfLwjgl.version ∧
    compCachedLwjgl.getReleaseDateTime 7 = vfLwjgl.releaseTime := by
  have h := c5_amended_accessor_fallback_order compCachedLwjgl 7
  exact ⟨h.1 (by decide), (h.2.2.2.1 rfl vfLwjgl rfl).1, (h.2.2.2.1 rfl vfLwjgl rfl).2⟩

/-- A manifest file's contents fail validation when the text is not JSON,
the document is not an object, the formatVersion field cannot be read as
an integer, or it reads as an integer other than 1. -/
def manifestInvalid : JsonContent → Bool
  | JsonContent.malformed => true
  | JsonContent.json doc =>
    match requireObject doc with
    | Except.error _ => true
    | Except.ok obj =>
      match requireInteger (jlookup obj ("formatVersion")) with
      | Except.error _ => true
      | Except.ok version => version ≠ 1

/-- C8: when the manifest exists but is malformed JSON or carries a
formatVersion other than 1, load() returns normally (the validation error
is consumed inside loadComponentList, so no exception reaches the caller
— in this embedding load is a total function) and the in-memory component
container and uid index come back empty. -/
theorem c8_invalid_manifest_loads_empty (migrate : FSModel → Option FSModel)
    (s : ComponentListState) (content : JsonContent)
    (hfile : fsLookup s.fs (componentsFilePath s.root) = some content)
    (hbad : manifestInvalid content = true) :
    (ComponentList.load migrate s).components = [] ∧
    (ComponentList.load migrate s).componentIndex = [] := by
  have hex : fsExists s.fs (componentsFilePath s.root) = true := by
    simp [fsExists, hfile]
  have hempty : (loadComponentList (fsLookup s.fs (componentsFilePath s.root))
      (patchesPattern s.root)).snd = [] := by
    rw [hfile]
    cases content with
    | malformed => rfl
    | json doc =>
      simp only [manifestInvalid] at hbad
      cases hobj : requireObject doc with
      | error e => simp [loadComponentList, parseComponentsDocument, hobj]
      | ok obj =>
        simp only [hobj] at hbad
        cases hver : requireInteger (jlookup obj ("formatVersion")) with
        | error e => simp [loadComponentList, parseComponentsDocument, hobj, hver]
        | ok version =>
          simp only [hver, decide_eq_true_eq] at hbad
          simp [loadComponentList, parseComponentsDocument, hobj, hver, hbad]
  simp [ComponentList.load, hex, loadInto, hempty]

/-- A concrete state whose manifest is a bare number (not an object). -/
def stateBadManifest : ComponentListState :=
  { root := "inst", components := [compVanillaMC],
    componentIndex := [(("net.minecraft" : String), compVanillaMC)],
    dirty := false, timerStarted := false, profile := none,
    fs := [((pathCombine ("inst") ("mmc-pack.json") : String),
            JsonContent.json (Json.num 3))] }

/-- Witness for C8: loading the concrete state with an invalid manifest
empties the container and the index. -/
theorem c8_witness :
    (ComponentList.load migrateNone stateBadManifest).components = [] ∧
    (ComponentList.load migrateNone stateBadManifest).componentIndex = [] :=
  c8_invalid_manifest_loads_empty migrateNone stateBadManifest
    (JsonContent.json (Json.num 3)) (by rfl) (by rfl)

/-- The target row of ComponentList::move for a valid source row i in a
list of length n: one above for up (wrapping from row 0 to the last row),
one below for down (clamped to the last row, making the last row a
no-op). -/
def moveTarget (n i : Nat) (up : Bool) : Nat :=
  if up then (if i = 0 then n - 1 else i - 1)
  else (if n ≤ i + 1 then n - 1 else i + 1)

/-- Whether the component at a position exists and is movable. -/
def movableAt (l : List Component) (i : Nat) : Bool :=
  optionMovable l[i]?

theorem getComponent_eq_getElem (s : ComponentListState) (z : Int) (j : Nat)
    (hz : z = (j : Int)) (h : j < s.components.length) :
    ComponentList.getComponent s z = s.components[j]? := by
  subst hz
  unfold ComponentList.getComponent
  rw [if_neg (by omega), Int.toNat_natCast]

/-- Characterisation of the component order after ComponentList::move at
a valid index: the sequence is unchanged when the target equals the
source (only possible through the clamp/wrap) or when either end of the
swap is missing or not movable; otherwise the source and target rows are
exchanged. -/
theorem move_components_char (s : ComponentListState) (i : Nat) (up : Bool)
    (h : i < s.components.length) :
    (ComponentList.move s (i : Int) up).components =
      (if moveTarget s.components.length i up = i then s.components
       else if movableAt s.components i && movableAt s.components (moveTarget s.components.length i up)
            then listSwap s.components i (moveTarget s.components.length i up)
            else s.components) := by
  have hn : 0 < s.components.length := by omega
  have hgi := getComponent_eq_getElem s (i : Int) i rfl h
  simp only [ComponentList.move]
  rw [if_neg (by omega : ¬ ((i : Int) < 0 ∨ (s.components.length : Int) ≤ (i : Int)))]
  cases up with
  | true =>
    simp only [eq_self_iff_true, if_true]
    by_cases hi0 : i = 0
    · have e1 : ¬ ((s.components.length : Int) ≤ (i : Int) - 1) := by omega
      have e2 : ((i : Int) - 1 = -1) := by omega
      simp only [if_neg e1, if_pos e2]
      have htv : moveTarget s.components.length i true = s.components.length - 1 := by
        simp [moveTarget, hi0]
      by_cases h1 : s.components.length = 1
      · have e3 : ((i : Int) = (s.components.length : Int) - 1) := by omega
        simp only [if_pos e3]
        rw [if_pos (by omega : moveTarget s.components.length i true = i)]
      · have e3 : ¬ ((i : Int) = (s.components.length : Int) - 1) := by omega
        simp only [if_neg e3]
        rw [if_neg (by omega : ¬ moveTarget s.components.length i true = i)]
        rw [show ((s.components.length : Int) - 1) = ((s.components.length - 1 : Nat) : Int) by omega]
        rw [getComponent_eq_getElem s _ (s.components.length - 1) rfl (by omega), hgi]
        rw [htv]
        simp only [movableAt, Int.toNat_natCast, Bool.and_eq_true]
        by_cases hm1 : optionMovable s.components[i]? = true <;>
          by_cases hm2 : optionMovable s.components[s.components.length - 1]? = true <;>
            simp [hm1, hm2, scheduleSave, reapplyPatches]
    · have e1 : ¬ ((s.components.length : Int) ≤ (i : Int) - 1) := by omega
      have e2 : ¬ ((i : Int) - 1 = -1) := by omega
      have e3 : ¬ ((i : Int) = (i : Int) - 1) := by omega
      simp only [if_neg e1, if_neg e2, if_neg e3]
      have htv : moveTarget s.components.length i true = i - 1 := by
        simp [moveTarget, hi0]
      rw [if_neg (by omega : ¬ moveTarget s.components.length i true = i)]
      rw [show ((i : Int) - 1) = ((i - 1 : Nat) : Int) by omega]
      rw [getComponent_eq_getElem s _ (i - 1) rfl (by omega), hgi]
      rw [htv]
      simp only [movableAt, Int.toNat_natCast, Bool.and_eq_true]
      by_cases hm1 : optionMovable s.components[i]? = true <;>
        by_cases hm2 : optionMovable s.components[i - 1]? = true <;>
          simp [hm1, hm2, scheduleSave, reapplyPatches]
  | false =>
    simp only [Bool.false_eq_true, if_false]
    by_cases hlast : s.components.length ≤ i + 1
    · have e1 : ((s.components.length : Int) ≤ (i : Int) + 1) := by omega
      have e2 : ¬ ((s.components.length : Int) - 1 = -1) := by omega
      have e3 : ((i : Int) = (s.components.length : Int) - 1) := by omega
      simp only [if_pos e1, if_neg e2, if_pos e3]
      have htv : moveTarget s.components.length i false = s.components.length - 1 := by
        simp [moveTarget, hlast]
      rw [if_pos (by omega : moveTarget s.components.length i false = i)]
    · have e1 : ¬ ((s.components.length : Int) ≤ (i : Int) + 1) := by omega
      have e2 : ¬ ((i : Int) + 1 = -1) := by omega
      have e3 : ¬ ((i : Int) = (i : Int) + 1) := by omega
      simp only [if_neg e1, if_neg e2, if_neg e3]
      have htv : moveTarget s.components.length i false = i + 1 := by
        simp [moveTarget, hlast]
      rw [if_neg (by omega : ¬ moveTarget s.components.length i false = i)]
      rw [show ((i : Int) + 1) = ((i + 1 : Nat) : Int) by omega]
      rw [getComponent_eq_getElem s _ (i + 1) rfl (by omega), hgi]
      rw [htv]
      simp only [movableAt, Int.toNat_natCast, Bool.and_eq_true]
      by_cases hm1 : optionMovable s.components[i]? = true <;>
        by_cases hm2 : optionMovable s.components[i + 1]? = true <;>
          simp [hm1, hm2, scheduleSave, reapplyPatches]

theorem listSwap_length (l : List Component) (i j : Nat) :
    (listSwap l i j).length = l.length := by
  unfold listSwap
  cases hi : l[i]? <;> cases hj : l[j]? <;> simp

theorem listSwap_getElem? (l : List Component) (i j k : Nat)
    (h1 : i < l.length) (h2 : j < l.length) :
    (listSwap l i j)[k]? =
      (if k = j then l[i]? else if k = i then l[j]? else l[k]?) := by
  unfold listSwap
  rw [List.getElem?_eq_getElem h1, List.getElem?_eq_getElem h2]
  simp only [List.getElem?_set, List.length_set]
  by_cases hkj : j = k
  · rw [if_pos hkj, if_pos h2, if_pos hkj.symm]
  · rw [if_neg hkj, if_neg (show ¬ (k = j) from fun hh => hkj hh.symm)]
    by_cases hki : i = k
    · rw [if_pos hki, if_pos h1, if_pos hki.symm]
    · rw [if_neg hki, if_neg (show ¬ (k = i) from fun hh => hki hh.symm)]

theorem listSwap_swap_back (l : List Component) (i j : Nat)
    (h1 : i < l.length) (h2 : j < l.length) :
    listSwap (listSwap l i j) j i = l := by
  apply List.ext_getElem?
  intro k
  have hl := listSwap_length l i j
  rw [listSwap_getElem? (listSwap l i j) j i k (by omega) (by omega)]
  rw [listSwap_getElem? l i j j h1 h2, listSwap_getElem? l i j i h1 h2]
  by_cases hki : k = i
  · rw [if_pos hki, if_pos (rfl : j = j), hki]
  · rw [if_neg hki]
    by_cases hkj : k = j
    · rw [if_pos hkj]
      by_cases hij : i = j
      · rw [if_pos hij, hkj, hij]
      · rw [if_neg hij, if_pos (rfl : i = i), hkj]
    · rw [if_neg hkj, listSwap_getElem? l i j k h1 h2, if_neg hkj, if_neg hki]

/-- Three concrete movable components. -/
def compA : Component :=
  { m_uid := "a", m_isMovable := true }

def compB : Component :=
  { m_uid := "b", m_isMovable := true }

def compC : Component :=
  { m_uid := "c", m_isMovable := true }

/-- A concrete state with three movable components. -/
def stateABC : ComponentListState :=
  { root := "inst", components := [compA, compB, compC],
    componentIndex := [(("a" : String), compA), (("b" : String), compB), (("c" : String), compC)],
    dirty := false, timerStarted := false, profile := none, fs := [] }

/-- Counterexample to C6: at the valid index 0, move(0, up) on three
movable components swaps row 0 with the last row (the code turns the
target index -1 into rowCount - 1), so the result is neither the original
sequence nor a swap with an adjacent neighbour. -/
theorem c6_counterexample :
    (ComponentList.move stateABC 0 true).components = [compC, compB, compA] ∧
    ¬ ((ComponentList.move stateABC 0 true).components = stateABC.components) ∧
    ¬ ((ComponentList.move stateABC 0 true).components = [compB, compA, compC]) := by
  refine ⟨rfl, by decide, by decide⟩

/-- C6 amended: at a valid index, move either leaves the component
sequence unchanged or swaps the component at the index with the one at
the computed target row — index - 1 for up except that row 0 wraps to the
last row, index + 1 for down except that the last row clamps to itself
(a no-op) — and it performs the swap only when both the moving component
and the target component are movable. -/
theorem c6_amended_move_swap_target (s : ComponentListState) (i : Nat) (up : Bool)
    (h : i < s.components.length) :
    (ComponentList.move s (i : Int) up).components = s.components ∨
    ((ComponentList.move s (i : Int) up).components =
        listSwap s.components i (moveTarget s.components.length i up) ∧
      movableAt s.components i = true ∧
      movableAt s.components (moveTarget s.components.length i up) = true) := by
  have hc := move_components_char s i up h
  by_cases ht : moveTarget s.components.length i up = i
  · left
    rw [hc, if_pos ht]
  · rw [if_neg ht] at hc
    by_cases hm : (movableAt s.components i && movableAt s.components
        (moveTarget s.components.length i up)) = true
    · right
      rw [hc, if_pos hm]
      have hsplit := Bool.and_eq_true_iff.mp hm
      exact ⟨rfl, hsplit.1, hsplit.2⟩
    · left
      rw [hc, if_neg hm]

/-- Witness for C6 amended: evaluated at index 1 (up) of the concrete
three-component state, where the target is row 0 and both rows are
movable. -/
theorem c6_witness :
    (ComponentList.move stateABC ((1 : Nat) : Int) true).components = stateABC.components ∨
    ((ComponentList.move stateABC ((1 : Nat) : Int) true).components =
        listSwap stateABC.components 1 (moveTarget stateABC.components.length 1 true) ∧
      movableAt stateABC.components 1 = true ∧
      movableAt stateABC.components (moveTarget stateABC.components.length 1 true) = true) :=
  c6_amended_move_swap_target stateABC 1 true (by decide)

/-- C7: at an index i ≥ 1 with both the component at i and the one at
i - 1 movable, move(i, up) followed by move(i - 1, down) restores the
original component order. -/
theorem c7_move_up_down_identity (s : ComponentListState) (i : Nat)
    (h1 : 1 ≤ i) (h2 : i < s.components.length)
    (hmi : movableAt s.components i = true)
    (hmj : movableAt s.components (i - 1) = true) :
    (ComponentList.move (ComponentList.move s (i : Int) true)
        (((i - 1 : Nat)) : Int) false).components = s.components := by
  have hstep1 : (ComponentList.move s (i : Int) true).components =
      listSwap s.components i (i - 1) := by
    have hc := move_components_char s i true h2
    have htv : moveTarget s.components.length i true = i - 1 := by
      unfold moveTarget
      rw [if_pos rfl, if_neg (by omega : ¬ i = 0)]
    rw [htv] at hc
    rw [hc, if_neg (by omega : ¬ (i - 1 = i)), if_pos (by rw [hmi, hmj]; rfl)]
  have hlen : (ComponentList.move s (i : Int) true).components.length =
      s.components.length := by
    rw [hstep1, listSwap_length]
  have hc2 := move_components_char (ComponentList.move s (i : Int) true) (i - 1) false
    (by omega)
  have htv2 : moveTarget (ComponentList.move s (i : Int) true).components.length
      (i - 1) false = i := by
    unfold moveTarget
    rw [if_neg (by simp), if_neg (by omega : ¬ (ComponentList.move s (i : Int) true).components.length ≤ i - 1 + 1)]
    omega
  rw [htv2] at hc2
  have hm1 : movableAt (ComponentList.move s (i : Int) true).components (i - 1) = true := by
    unfold movableAt
    rw [hstep1, listSwap_getElem? s.components i (i - 1) (i - 1) h2 (by omega)]
    rw [if_pos rfl]
    unfold movableAt at hmi
    exact hmi
  have hm2 : movableAt (ComponentList.move s (i : Int) true).components i = true := by
    unfold movableAt
    rw [hstep1, listSwap_getElem? s.components i (i - 1) i h2 (by omega)]
    rw [if_neg (by omega : ¬ (i = i - 1)), if_pos rfl]
    unfold movableAt at hmj
    exact hmj
  rw [hc2, if_neg (by omega : ¬ (i = i - 1)), if_pos (by rw [hm1, hm2]; rfl)]
  rw [hstep1]
  exact listSwap_swap_back s.components i (i - 1) h2 (by omega)

/-- Witness for C7: moving row 1 up and then row 0 down in the concrete
three-component state restores the original order. -/
theorem c7_witness :
    (ComponentList.move (ComponentList.move stateABC ((1 : Nat) : Int) true)
        (((1 - 1 : Nat)) : Int) false).components = stateABC.components :=
  c7_move_up_down_identity stateABC 1 (by decide) (by decide) (by rfl) (by rfl)

/-- The component that componentFromJsonV1 reconstructs from
componentToJsonV1's output: same uid, currentVersion and cachedName, with
the filename pointed at the per-component patch path. -/
def reloadedComponent (componentJsonPattern : String) (c : Component) : Component :=
  { Component.mkFromFilename c.m_uid
      (pathCombine (qtArg componentJsonPattern c.m_uid) (qtArg ("%1.json") c.m_uid)) with
    m_currentVersion := c.m_currentVersion, cachedName := c.cachedName }

theorem componentFromJsonV1_toJsonV1 (componentJsonPattern : String) (c : Component) :
    componentFromJsonV1 componentJsonPattern (componentToJsonV1 c) =
      Except.ok (reloadedComponent componentJsonPattern c) := by
  unfold componentFromJsonV1 componentToJsonV1 reloadedComponent
  by_cases hcv : c.m_currentVersion = "" <;> by_cases hcn : c.cachedName = "" <;>
    simp [hcv, hcn, jlookup, requireString, ensureString, Component.mkFromFilename]

theorem readComponents_map (componentJsonPattern : String) (l : List Component) :
    readComponents componentJsonPattern (l.map (fun c => Json.obj (componentToJsonV1 c))) =
      Except.ok (l.map (reloadedComponent componentJsonPattern)) := by
  induction l with
  | nil => rfl
  | cons c rest ih =>
    simp [readComponents, requireObject, componentFromJsonV1_toJsonV1, ih]

theorem fsLookup_fsWrite (fs : FSModel) (path : String) (content : JsonContent) :
    fsLookup (fsWrite fs path content) path = some content := by
  induction fs with
  | nil => simp [fsWrite, fsLookup]
  | cons kv rest ih =>
    obtain ⟨p, c0⟩ := kv
    by_cases hk : p = path
    · simp [fsWrite, fsLookup, hk]
    · simp [fsWrite, fsLookup, hk, ih]

theorem parseComponentsDocument_manifest (componentJsonPattern : String)
    (l : List Component) :
    parseComponentsDocument componentJsonPattern (componentsManifestJson l) =
      Except.ok (l.map (reloadedComponent componentJsonPattern)) := by
  simp [parseComponentsDocument, componentsManifestJson, requireObject, jlookup,
    requireInteger, requireArray, readComponents_map]

/-- C4: serialising a component list with save() and reading the manifest
back with load() preserves, in order, each component's uid, currentVersion
and cachedName (fields written only when non-empty read back as the same
empty strings), so the reloaded list matches the original on the preserved
fields and has the same length. -/
theorem c4_save_load_roundtrip (migrate : FSModel → Option FSModel)
    (s : ComponentListState) :
    (ComponentList.load migrate (ComponentList.save s)).components.map
        (fun c => (c.m_uid, c.m_currentVersion, c.cachedName)) =
      s.components.map (fun c => (c.m_uid, c.m_currentVersion, c.cachedName)) ∧
    (ComponentList.load migrate (ComponentList.save s)).components.length =
      s.components.length := by
  have hlook : fsLookup (ComponentList.save s).fs
      (componentsFilePath (ComponentList.save s).root) =
      some (JsonContent.json (componentsManifestJson s.components)) := by
    simp [ComponentList.save, saveComponentList, fsLookup_fsWrite]
  have hex : fsExists (ComponentList.save s).fs
      (componentsFilePath (ComponentList.save s).root) = true := by
    simp [fsExists, hlook]
  have hcomps : (ComponentList.load migrate (ComponentList.save s)).components =
      s.components.map (reloadedComponent (patchesPattern (ComponentList.save s).root)) := by
    rw [ComponentList.load, if_pos hex]
    simp [loadInto, hlook, loadComponentList, parseComponentsDocument_manifest]
  constructor
  · rw [hcomps, List.map_map]
    exact List.map_congr_left (fun c hc => rfl)
  · rw [hcomps, List.length_map]

/-- Modelled from the spec: the claim's reading of revertToVanilla (spec
§4.3), which invokes the corresponding operation per non-vanilla
component — revertToBase for revertible components, remove for removable
ones — stopping and rolling forward on the first failure. -/
def revertToVanillaSpecLoop (migrate : FSModel → Option FSModel)
    (s : ComponentListState) : List Component → Bool × ComponentListState
  | [] => (true, scheduleSave (reapplyPatches s))
  | it :: rest =>
    if !it.isCustom then revertToVanillaSpecLoop migrate s rest
    else if it.isRevertible then
      match s.components.findIdx? (fun patch => patch.getID = it.getID) with
      | some i =>
        let step := ComponentList.revertToBase migrate s (i : Int)
        if !step.fst then (false, scheduleSave (reapplyPatches step.snd))
        else revertToVanillaSpecLoop migrate step.snd rest
      | none => revertToVanillaSpecLoop migrate s rest
    else if it.isRemovable then
      let step := ComponentList.removeById s it.getID
      if !step.fst then (false, scheduleSave (reapplyPatches step.snd))
      else revertToVanillaSpecLoop migrate step.snd rest
    else revertToVanillaSpecLoop migrate s rest

/-- Modelled from the spec: entry point of the claim's reading of
revertToVanilla, iterating a snapshot of the component list. -/
def revertToVanillaSpec (migrate : FSModel → Option FSModel)
    (s : ComponentListState) : Bool × ComponentListState :=
  revertToVanillaSpecLoop migrate s s.components

/-- A concrete local version file for a custom, revertible, non-removable
component. -/
def vfMod : VersionFileM :=
  { uid := "com.example.mod", version := "1.0", name := "Example Mod",
    order := 7, releaseTime := 10, problemSeverity := 0, jarMods := [] }

/-- A custom component that is revertible but not removable. -/
def compCustomMod : Component :=
  { m_uid := "com.example.mod", cachedName := "Example Mod",
    m_currentVersion := "1.0", m_isRevertible := true, m_isRemovable := false,
    m_file := some vfMod,
    m_filename := pathCombine3 ("inst") ("patches") ("com.example.mod.json"),
    m_loaded := true }

/-- A concrete state holding only that component, with its patch file on
disk. -/
def stateCustomMod : ComponentListState :=
  { root := "inst", components := [compCustomMod],
    componentIndex := [(("com.example.mod" : String), compCustomMod)],
    dirty := false, timerStarted := false, profile := none,
    fs := [((pathCombine3 ("inst") ("patches") ("com.example.mod.json") : String),
            JsonContent.json (versionFileToJson vfMod))] }

/-- Counterexample to C9: on a custom component that is revertible but not
removable the code invokes remove (never revertToBase), whose removability
precondition fails, so revertToVanilla returns false and the component
stays in the list; under the claim's procedure (revert for revertible
components) the revert succeeds and the operation returns true. -/
theorem c9_counterexample :
    (ComponentList.revertToVanilla stateCustomMod).fst = false ∧
    (ComponentList.revertToVanilla stateCustomMod).snd.components = [compCustomMod] ∧
    (revertToVanillaSpec migrateNone stateCustomMod).fst = true := by
  refine ⟨rfl, rfl, rfl⟩

theorem revertToVanillaLoop_skip (s : ComponentListState) (pre rest : List Component)
    (hskip : ∀ x ∈ pre, x.isCustom = false ∨ (x.isRevertible = false ∧ x.isRemovable = false)) :
    revertToVanillaLoop s (pre ++ rest) = revertToVanillaLoop s rest := by
  induction pre with
  | nil => rfl
  | cons x xs ih =>
    have hxs : ∀ y ∈ xs, y.isCustom = false ∨ (y.isRevertible = false ∧ y.isRemovable = false) :=
      fun y hy => hskip y (by simp [hy])
    rw [List.cons_append]
    by_cases hcu : x.isCustom = true
    · have hx := hskip x (by simp)
      rcases hx with hc | ⟨hr1, hr2⟩
      · rw [hcu] at hc
        exact absurd hc (by simp)
      · simp only [revertToVanillaLoop, hcu, Bool.not_true, Bool.false_eq_true, if_false,
          hr1, hr2, Bool.or_false]
        exact ih hxs
    · have hcf : x.isCustom = false := by
        cases hb : x.isCustom
        · rfl
        · exact absurd hb hcu
      simp only [revertToVanillaLoop, hcf, Bool.not_false, eq_self_iff_true, if_true]
      exact ih hxs

/-- Failure branch of revertToVanilla: when the first custom component
with a mutation flag is revertible but not removable, the remove call the
code makes for it fails, and the operation re-applies patches, schedules a
save and returns false with the component sequence unchanged. -/
theorem revertToVanilla_first_failure (s : ComponentListState)
    (pre post : List Component) (c : Component)
    (hsplit : s.components = pre ++ c :: post)
    (hskip : ∀ x ∈ pre, x.isCustom = false ∨ (x.isRevertible = false ∧ x.isRemovable = false))
    (huid : ∀ x ∈ pre, ¬ (x.getID = c.getID))
    (hc : c.isCustom = true) (hrev : c.isRevertible = true)
    (hrem : c.isRemovable = false) :
    ComponentList.revertToVanilla s = (false, scheduleSave (reapplyPatches s)) := by
  have hlen : pre.length < s.components.length := by
    rw [hsplit, List.length_append, List.length_cons]
    omega
  have hfind : s.components.findIdx? (fun patch => patch.getID = c.getID) =
      some pre.length := by
    rw [hsplit, List.findIdx?_append]
    have h1 : List.findIdx? (fun patch => decide (patch.getID = c.getID)) pre = none := by
      rw [List.findIdx?_eq_none_iff]
      intro x hx
      simpa using huid x hx
    rw [h1]
    simp [List.findIdx?_cons]
  have hget : ComponentList.getComponent s ((pre.length : Nat) : Int) = some c := by
    rw [getComponent_eq_getElem s _ pre.length rfl hlen]
    rw [hsplit, List.getElem?_append]
    rw [if_neg (by omega : ¬ pre.length < pre.length)]
    simp
  have hstep : ComponentList.removeById s c.getID = (false, s) := by
    rw [ComponentList.removeById, hfind]
    simp only [ComponentList.removeAtIdx, hget]
    simp [hrem]
  unfold ComponentList.revertToVanilla
  rw [hsplit]
  rw [revertToVanillaLoop_skip s pre (c :: post) hskip]
  simp only [revertToVanillaLoop, hc, Bool.not_true, Bool.false_eq_true, if_false,
    hrev, Bool.true_or, if_true, hstep, Bool.not_false, eq_self_iff_true]



theorem preRemoveJarMod_fst (fs : FSModel) (jarMod : Bool × String) :
    (preRemoveJarMod fs jarMod).fst = true := by
  unfold preRemoveJarMod
  split_ifs <;> rfl

theorem removeJarMods_fst (jarMods : List (Bool × String)) : ∀ (fs : FSModel),
    (removeJarMods fs jarMods).fst = true := by
  induction jarMods with
  | nil => intro fs; rfl
  | cons jarMod rest ih =>
    intro fs
    simp [removeJarMods, preRemoveJarMod_fst, ih]

/-- In this model file deletion always succeeds, so the internal removal
step never fails. -/
theorem removeComponent_internal_fst (fs : FSModel) (patch : Component) :
    (removeComponent_internal fs patch).fst = true := by
  unfold removeComponent_internal
  cases hv : patch.getVersionFile <;> simp [hv, removeJarMods_fst]

theorem eraseIdx_append_cons (A : List Component) (b : Component) (B : List Component) :
    (A ++ b :: B).eraseIdx A.length = A ++ B := by
  induction A with
  | nil => rfl
  | cons a A ih => simp [List.eraseIdx, ih]

theorem cons_sublist_split (c : Component) (rest l : List Component)
    (h : (c :: rest).Sublist l) :
    ∃ A B, l = A ++ c :: B ∧ rest.Sublist B := by
  obtain ⟨r₁, r₂, hl, hmem, hrest⟩ := List.cons_sublist_iff.mp h
  obtain ⟨p, q, hr⟩ := List.append_of_mem hmem
  refine ⟨p, q ++ r₂, ?_, ?_⟩
  · rw [hl, hr, List.append_assoc, List.cons_append]
  · exact hrest.trans (List.sublist_append_right q r₂)

/-- Success branch of the loop of revertToVanilla: when the uids of the
live list are pairwise distinct and every custom component of the snapshot
that carries a mutation flag is removable, every remove call the loop
makes succeeds and the loop returns true. -/
theorem revertToVanillaLoop_success (todo : List Component) :
    ∀ (s : ComponentListState), todo.Sublist s.components →
    (s.components.map Component.getID).Nodup →
    (∀ c ∈ todo, c.isCustom = true → (c.isRevertible || c.isRemovable) = true →
      c.isRemovable = true) →
    (revertToVanillaLoop s todo).fst = true := by
  induction todo with
  | nil =>
    intro s hsub hnodup hrem
    rfl
  | cons c rest ih =>
    intro s hsub hnodup hrem
    have hrem2 : ∀ d ∈ rest, d.isCustom = true → (d.isRevertible || d.isRemovable) = true →
        d.isRemovable = true :=
      fun d hd => hrem d (List.mem_cons_of_mem c hd)
    by_cases hcu : c.isCustom = true
    · by_cases hfl : (c.isRevertible || c.isRemovable) = true
      · have hcrem : c.isRemovable = true := hrem c (List.mem_cons_self c rest) hcu hfl
        obtain ⟨A, B, hl, hrestB⟩ := cons_sublist_split c rest s.components hsub
        have hmapmid : ((A.map Component.getID) ++
            Component.getID c :: (B.map Component.getID)).Nodup := by
          rw [← List.map_cons, ← List.map_append, ← hl]
          exact hnodup
        have hmid := List.nodup_middle.mp hmapmid
        have hnotin := (List.nodup_cons.mp hmid).1
        have hnodup2 : ((A ++ B).map Component.getID).Nodup := by
          rw [List.map_append]
          exact (List.nodup_cons.mp hmid).2
        have hnotinA : ∀ x ∈ A, ¬ (x.getID = c.getID) := by
          intro x hx heq
          apply hnotin
          rw [List.mem_append]
          left
          rw [← heq]
          exact List.mem_map_of_mem Component.getID hx
        have hlen : A.length < s.components.length := by
          rw [hl, List.length_append, List.length_cons]
          omega
        have hfind : s.components.findIdx? (fun patch => patch.getID = c.getID) =
            some A.length := by
          rw [hl, List.findIdx?_append]
          have h1 : List.findIdx? (fun patch => decide (patch.getID = c.getID)) A = none := by
            rw [List.findIdx?_eq_none_iff]
            intro x hx
            simpa using hnotinA x hx
          rw [h1]
          simp [List.findIdx?_cons]
        have hget : ComponentList.getComponent s ((A.length : Nat) : Int) = some c := by
          rw [getComponent_eq_getElem s _ A.length rfl hlen]
          rw [hl, List.getElem?_append]
          rw [if_neg (by omega : ¬ A.length < A.length)]
          simp
        have hbid : ComponentList.removeById s c.getID =
            (true, scheduleSave (reapplyPatches
              { s with fs := (removeComponent_internal s.fs c).snd,
                       components := s.components.eraseIdx A.length,
                       componentIndex := mapRemove s.componentIndex c.getID })) := by
          rw [ComponentList.removeById, hfind]
          simp only [ComponentList.removeAtIdx, hget]
          simp [hcrem, removeComponent_internal_fst, Int.toNat_natCast]
        simp only [revertToVanillaLoop, hcu, Bool.not_true, Bool.false_eq_true, if_false,
          hfl, if_true, hbid]
        apply ih
        · show rest.Sublist (scheduleSave (reapplyPatches _)).components
          simp only [scheduleSave, reapplyPatches]
          rw [hl, eraseIdx_append_cons]
          exact hrestB.trans (List.sublist_append_right A B)
        · show ((scheduleSave (reapplyPatches _)).components.map Component.getID).Nodup
          simp only [scheduleSave, reapplyPatches]
          rw [hl, eraseIdx_append_cons]
          exact hnodup2
        · exact hrem2
      · have hflf : (c.isRevertible || c.isRemovable) = false := by
          cases hb : (c.isRevertible || c.isRemovable)
          · rfl
          · exact absurd hb hfl
        simp only [revertToVanillaLoop, hcu, Bool.not_true, Bool.false_eq_true, if_false,
          hflf]
        exact ih s ((List.sublist_cons_self c rest).trans hsub) hnodup hrem2
    · have hcf : c.isCustom = false := by
        cases hb : c.isCustom
        · rfl
        · exact absurd hb hcu
      simp only [revertToVanillaLoop, hcf, Bool.not_false, eq_self_iff_true, if_true]
      exact ih s ((List.sublist_cons_self c rest).trans hsub) hnodup hrem2

/-- C9 amended: revertToVanilla iterates a snapshot of the list, skipping
non-custom components and custom components with neither flag set; for a
custom component that is revertible or removable it always invokes
remove(uid) — never revertToBase. When the first such component is
revertible but not removable, the removal precondition fails and the
operation re-applies patches, schedules a save, and returns false with the
component sequence unchanged; when the uids are pairwise distinct and
every such component is removable, every removal succeeds and the
operation returns true. -/
theorem c9_amended_remove_semantics (s : ComponentListState) :
    (∀ pre post c, s.components = pre ++ c :: post →
      (∀ x ∈ pre, x.isCustom = false ∨ (x.isRevertible = false ∧ x.isRemovable = false)) →
      (∀ x ∈ pre, ¬ (x.getID = c.getID)) →
      c.isCustom = true → c.isRevertible = true → c.isRemovable = false →
      ComponentList.revertToVanilla s = (false, scheduleSave (reapplyPatches s))) ∧
    ((s.components.map Component.getID).Nodup →
      (∀ c ∈ s.components, c.isCustom = true → (c.isRevertible || c.isRemovable) = true →
        c.isRemovable = true) →
      (ComponentList.revertToVanilla s).fst = true) := by
  constructor
  · intro pre post c hsplit hskip huid hc hrev hrem
    exact revertToVanilla_first_failure s pre post c hsplit hskip huid hc hrev hrem
  · intro hnodup hrem
    exact revertToVanillaLoop_success s.components s (List.Sublist.refl s.components)
      hnodup hrem

/-- A custom component that is removable (and movable), whose removal by
revertToVanilla succeeds. -/
def compRemovableMod : Component :=
  { m_uid := "com.example.jarmod", cachedName := "Example Jarmod",
    m_currentVersion := "1", m_isRevertible := false, m_isRemovable := true,
    m_isMovable := true, m_file := some vfMod,
    m_filename := pathCombine3 ("inst") ("patches") ("com.example.jarmod.json"),
    m_loaded := true }

/-- A concrete state holding only that removable custom component, with
its patch file on disk. -/
def stateRemovableMod : ComponentListState :=
  { root := "inst", components := [compRemovableMod],
    componentIndex := [(("com.example.jarmod" : String), compRemovableMod)],
    dirty := false, timerStarted := false, profile := none,
    fs := [((pathCombine3 ("inst") ("patches") ("com.example.jarmod.json") : String),
            JsonContent.json (versionFileToJson vfMod))] }

/-- Witness for C9 amended: revertToVanilla fails and leaves the sequence
untouched on the concrete revertible-non-removable custom component, and
succeeds on the concrete removable custom component. -/
theorem c9_amended_witness :
    (ComponentList.revertToVanilla stateCustomMod =
      (false, scheduleSave (reapplyPatches stateCustomMod))) ∧
    (ComponentList.revertToVanilla stateRemovableMod).fst = true := by
  constructor
  · exact (c9_amended_remove_semantics stateCustomMod).1 [] [] compCustomMod rfl
      (by simp) (by simp) rfl rfl rfl
  · exact (c9_amended_remove_semantics stateRemovableMod).2 (by decide) (by decide)
